import Mathlib

/-!
Verification development for the hex-grid renderer (`src/Render.py`).

The module is embedded shallowly over the real numbers: Python's
float arithmetic (`math.sqrt(3)`, `math.floor`, `math.ceil`, `/`) is
modelled by exact real arithmetic with `Real.sqrt 3`, `Int.floor` and
`Int.ceil`.  The external `Map` collaborator is kept abstract as a
structure carrying `rows`, `cols`, a `valid_cell` predicate and the
`positions` association of cells to units.  Drawing is modelled both as
a list of emitted drawing commands and as a state transformer over an
abstract pixel buffer whose primitive operations (`fill`, polygon
rasterization, unit `paint`) are parameters.
-/

noncomputable section

namespace HexGrid

/-- An RGB color, standing for `pygame.Color`. -/
structure Color where
  red : ℕ
  green : ℕ
  blue : ℕ
deriving DecidableEq

/-- `GRID_COLOR = pygame.Color(50, 50, 50)` from `Render.__init__`. -/
def GRID_COLOR : Color := ⟨50, 50, 50⟩

/-- The magenta transparency key `pygame.Color(255, 0, 255)` used by `Render.draw`. -/
def magenta : Color := ⟨255, 0, 255⟩

/-- `SQRT3 = math.sqrt(3)` from the top of `Render.py`. -/
def SQRT3 : ℝ := Real.sqrt 3

/-- The map collaborator consumed by the renderer: `rows`, `cols`, the
`valid_cell` predicate and the `positions` mapping from cells to units
(`dict.items()` iteration is modelled as a list of pairs). -/
structure HexMap (U : Type) where
  rows : ℕ
  cols : ℕ
  valid_cell : ℤ × ℤ → Bool
  positions : List ((ℤ × ℤ) × U)

/-- A `pygame.Rect(left, top, width, height)`. -/
structure PixelRect where
  left : ℝ
  top : ℝ
  width : ℝ
  height : ℝ

/-- The center pixel of a rectangle. -/
def rectCenter (R : PixelRect) : ℝ × ℝ :=
  (R.left + R.width / 2, R.top + R.height / 2)

namespace Render

/-- The `width` property of `Render`:
`math.ceil(cols / 2.0) * 2 * radius + math.floor(cols / 2.0) * radius + 1`. -/
def width {U : Type} (m : HexMap U) (radius : ℝ) : ℝ :=
  (⌈(m.cols : ℝ) / 2⌉ : ℝ) * 2 * radius + (⌊(m.cols : ℝ) / 2⌋ : ℝ) * radius + 1

/-- The `height` property of `Render`: `(rows + .5) * radius * SQRT3 + 1`. -/
def height {U : Type} (m : HexMap U) (radius : ℝ) : ℝ :=
  ((m.rows : ℝ) + 0.5) * radius * SQRT3 + 1

/-- `Render.get_surface((row, col))`: the bounding rectangle of a cell,
with `width = 2*radius`, `height = radius*SQRT3`,
`top = (row - ceil(col/2.0)) * height + (height/2 if col % 2 == 1 else 0)` and
`left = 1.5 * radius * col`. -/
def get_surface (radius : ℝ) (rc : ℤ × ℤ) : PixelRect :=
  let row := rc.1
  let col := rc.2
  let width := 2 * radius
  let height := radius * SQRT3
  let top : ℝ :=
    ((row : ℝ) - (⌈(col : ℝ) / 2⌉ : ℝ)) * height +
      (if col % 2 = 1 then height / 2 else 0)
  let left : ℝ := 1.5 * radius * (col : ℝ)
  ⟨left, top, width, height⟩

/-- The body of `Render.get_cell` up to (but not including) the final
`valid_cell` test: coarse square bucket, local offsets, axial row
correction and the boundary refinement for the hex-grid edges.  The
shadowed reassignments of `x`, `y`, `row` in the Python source are
rendered as shadowing `let`s. -/
def resolve (radius : ℝ) (x y : ℝ) : ℤ × ℤ :=
  let row : ℤ := ⌊y / (SQRT3 * radius)⌋
  let col : ℤ := ⌊x / (1.5 * radius)⌋
  let x : ℝ := x - (col : ℝ) * 1.5 * radius
  let y : ℝ := y - (row : ℝ) * SQRT3 * radius
  let row : ℤ := row + ⌊((col : ℝ) + 1) / 2⌋
  if col % 2 = 0 then
    if y < SQRT3 * radius / 2 ∧ x < 0.5 * radius ∧
        y < SQRT3 * radius / 2 - x then
      (row - 1, col - 1)
    else if y > SQRT3 * radius / 2 ∧ x < 0.5 * radius ∧
        y > SQRT3 * radius / 2 + x then
      (row, col - 1)
    else
      (row, col)
  else
    if x < 0.5 * radius ∧ |y - SQRT3 * radius / 2| < SQRT3 * radius / 2 - x then
      (row - 1, col - 1)
    else if y < SQRT3 * radius / 2 then
      (row - 1, col)
    else
      (row, col)

/-- `Render.get_cell((x, y))`: the resolved cell if `self.map.valid_cell`
accepts it, `None` otherwise. -/
def get_cell {U : Type} (m : HexMap U) (radius : ℝ) (p : ℝ × ℝ) :
    Option (ℤ × ℤ) :=
  let rc := resolve radius p.1 p.2
  if m.valid_cell rc then some rc else none

end Render

/-- Modelled from the spec (section 4.1, `PixelToCell`, steps 1-4); the
`Map` module implementing the spec's `MapView` is not part of the
sources, and this transcribes the spec's documented algorithm verbatim
for comparison with `Render.resolve`:
step 1 coarse bucket `row0 = floor(y/(SQRT3*radius))`,
`col0 = floor(x/(1.5*radius))`; step 2 local offsets
`lx = x - col0*1.5*radius`, `ly = y - row0*SQRT3*radius`; step 3 axial
correction `row1 = row0 + floor((col0+1)/2)`; step 4 boundary
refinement with the even-column and odd-column rules. -/
def pixelToCellSpec (radius x y : ℝ) : ℤ × ℤ :=
  let row0 : ℤ := ⌊y / (SQRT3 * radius)⌋
  let col0 : ℤ := ⌊x / (1.5 * radius)⌋
  let lx : ℝ := x - (col0 : ℝ) * 1.5 * radius
  let ly : ℝ := y - (row0 : ℝ) * SQRT3 * radius
  let row1 : ℤ := row0 + ⌊((col0 : ℝ) + 1) / 2⌋
  if col0 % 2 = 0 then
    if ly < SQRT3 * radius / 2 ∧ lx < 0.5 * radius ∧
        ly < SQRT3 * radius / 2 - lx then
      (row1 - 1, col0 - 1)
    else if ly > SQRT3 * radius / 2 ∧ lx < 0.5 * radius ∧
        ly > SQRT3 * radius / 2 + lx then
      (row1, col0 - 1)
    else
      (row1, col0)
  else
    if lx < 0.5 * radius ∧ |ly - SQRT3 * radius / 2| < SQRT3 * radius / 2 - lx then
      (row1 - 1, col0 - 1)
    else if ly < SQRT3 * radius / 2 then
      (row1 - 1, col0)
    else
      (row1, col0)

/-- Modelled from the spec: `valid_cell` of the external `Map` (spec
sections 3 and 8: a cell is valid only when `0 <= row < rows` and
`0 <= col < cols`); the `Map` module itself is not among the sources. -/
def specValidCell (rows cols : ℕ) (rc : ℤ × ℤ) : Bool :=
  decide (0 ≤ rc.1 ∧ rc.1 < (rows : ℤ) ∧ 0 ≤ rc.2 ∧ rc.2 < (cols : ℤ))

/-- The point list `cell` of `RenderGrid.draw`: the six corners of one
hexagon, based on the radius. -/
def hexPoints (radius : ℝ) : List (ℝ × ℝ) :=
  [(0.5 * radius, 0), (1.5 * radius, 0), (2 * radius, SQRT3 / 2 * radius),
   (1.5 * radius, SQRT3 * radius), (0.5 * radius, SQRT3 * radius),
   (0, SQRT3 / 2 * radius)]

/-- One `pygame.draw.polygon(surface, color, points, width)` call. -/
structure PolygonCmd where
  color : Color
  points : List (ℝ × ℝ)
  lineWidth : ℕ

/-- A canvas: the configured colorkey (`None` until set) together with the
pixel buffer, the buffer type kept abstract. -/
structure Canvas (B : Type) where
  key : Option Color
  buf : B

/-- The shared template step of `Render.draw`: read the colorkey; if it is
not set, set it to magenta; fill the whole surface with that color.  A
whole-surface fill overwrites every pixel, so the resulting buffer is a
function of the fill color alone (`fillB`). -/
def base_draw {B : Type} (fillB : Color → B) (c : Canvas B) : Canvas B :=
  let color := match c.key with
    | none => magenta
    | some k => k
  ⟨some color, fillB color⟩

namespace RenderGrid

/-- The polygon commands `RenderGrid.draw` issues: for every column and,
inside it, every row of the map, the hex outline `hexPoints` shifted by
`left = 1.5 * col * radius` and `top = offset + SQRT3 * row * radius`
(`offset = radius * SQRT3 / 2` for odd columns), drawn in `GRID_COLOR`
with line width 1. -/
def cmds {U : Type} (m : HexMap U) (radius : ℝ) : List PolygonCmd :=
  (List.range m.cols).flatMap fun (col : ℕ) =>
    (List.range m.rows).map fun (row : ℕ) =>
      let offset : ℝ := if col % 2 = 1 then radius * SQRT3 / 2 else 0
      let top : ℝ := offset + SQRT3 * (row : ℝ) * radius
      let left : ℝ := 1.5 * (col : ℝ) * radius
      ⟨GRID_COLOR, (hexPoints radius).map fun q => (q.1 + left, q.2 + top), 1⟩

/-- `RenderGrid.draw`: the base fill followed by rasterizing each polygon
command in order; `raster` stands for `pygame.draw.polygon`. -/
def draw {U B : Type} (raster : PolygonCmd → B → B) (fillB : Color → B)
    (m : HexMap U) (radius : ℝ) (c : Canvas B) : Canvas B :=
  let c1 := base_draw fillB c
  ⟨c1.key, (cmds m radius).foldl (fun b cmd => raster cmd b) c1.buf⟩

end RenderGrid

namespace RenderUnits

/-- `RenderUnits.draw`: the base fill, then for each `(position, unit)`
pair of `map.positions` one `unit.paint(self.get_surface(position))`
call; `paint u rect` stands for `u.paint` acting on the sub-view of the
buffer restricted to `rect`. -/
def draw {U B : Type} (paint : U → PixelRect → B → B) (fillB : Color → B)
    (m : HexMap U) (radius : ℝ) (c : Canvas B) : Canvas B :=
  let c1 := base_draw fillB c
  ⟨c1.key,
    m.positions.foldl
      (fun b pu => paint pu.2 (Render.get_surface radius pu.1) b) c1.buf⟩

end RenderUnits

/-! ## Theorems -/

/-- C2: for every pixel `(x, y)` and radius, `get_cell` computes its
result exactly by the documented algorithm: the pre-validity resolution
agrees with the spec's `PixelToCell` steps 1-4 (coarse bucket, local
offsets, axial correction, boundary refinement), and the final result is
that coordinate filtered through `valid_cell`. -/
theorem get_cell_follows_documented_algorithm {U : Type} (m : HexMap U)
    (radius x y : ℝ) :
    Render.resolve radius x y = pixelToCellSpec radius x y ∧
    Render.get_cell m radius (x, y) =
      (if m.valid_cell (pixelToCellSpec radius x y) = true then
        some (pixelToCellSpec radius x y) else none) := by
  constructor
  · rfl
  · rfl

/-- C4: `get_cell` is total (the embedding is a total function, mirroring
that the Python code raises no error for any pixel when the radius is
nonzero), and it returns the resolved coordinate exactly when the map's
`valid_cell` accepts it, the `none` sentinel otherwise. -/
theorem get_cell_total_and_filters {U : Type} (m : HexMap U)
    (radius x y : ℝ) :
    Render.get_cell m radius (x, y) =
      (if m.valid_cell (Render.resolve radius x y) = true then
        some (Render.resolve radius x y) else none) ∧
    (Render.get_cell m radius (x, y)).isSome =
      m.valid_cell (Render.resolve radius x y) := by
  refine ⟨rfl, ?_⟩
  simp only [Render.get_cell]
  cases h : m.valid_cell (Render.resolve radius x y) <;> simp [h]

/-- C10: the coordinate `get_cell` resolves before the validity check is
within one step of the coarse bucket: its column is `col0` or `col0 - 1`
and its row is `row1` or `row1 - 1`, where `col0 = floor(x/(1.5*r))` and
`row1 = floor(y/(SQRT3*r)) + floor((col0+1)/2)`. -/
theorem resolve_within_one_step (radius x y : ℝ) :
    ((Render.resolve radius x y).1 =
        ⌊y / (SQRT3 * radius)⌋ + ⌊((⌊x / (1.5 * radius)⌋ : ℝ) + 1) / 2⌋ ∨
      (Render.resolve radius x y).1 =
        ⌊y / (SQRT3 * radius)⌋ + ⌊((⌊x / (1.5 * radius)⌋ : ℝ) + 1) / 2⌋ - 1) ∧
    ((Render.resolve radius x y).2 = ⌊x / (1.5 * radius)⌋ ∨
      (Render.resolve radius x y).2 = ⌊x / (1.5 * radius)⌋ - 1) := by
  simp only [Render.resolve]
  split_ifs <;> simp

/-- Folding "append one element" over a list, starting from `acc`, is
`acc` followed by the mapped list.  Shared helper for trace arguments. -/
theorem foldl_append_singleton_eq_map {A B : Type} (f : A → B) :
    ∀ (l : List A) (acc : List B),
      l.foldl (fun b a => b ++ [f a]) acc = acc ++ l.map f := by
  intro l
  induction l with
  | nil => intro acc; simp
  | cons a l ih =>
    intro acc
    simp [ih]

/-- The command `RenderGrid.draw` emits for `(row, col)`, rewritten from
the code's offset arithmetic (`left = 1.5*col*radius`,
`top = offset + SQRT3*row*radius`) to the claim's
(`left = 1.5*radius*col`, `top = SQRT3*radius*row + offset`). -/
theorem grid_cmd_eq (radius : ℝ) (row col : ℕ) :
    (PolygonCmd.mk GRID_COLOR ((hexPoints radius).map fun q =>
        (q.1 + 1.5 * (col : ℝ) * radius,
         q.2 + ((if col % 2 = 1 then radius * SQRT3 / 2 else 0) +
           SQRT3 * (row : ℝ) * radius))) 1)
    = ⟨GRID_COLOR, (hexPoints radius).map fun q =>
        (q.1 + 1.5 * radius * (col : ℝ),
         q.2 + (SQRT3 * radius * (row : ℝ) +
           (if col % 2 = 1 then SQRT3 * radius / 2 else 0))), 1⟩ := by
  have h : (fun q : ℝ × ℝ =>
        (q.1 + 1.5 * (col : ℝ) * radius,
         q.2 + ((if col % 2 = 1 then radius * SQRT3 / 2 else 0) +
           SQRT3 * (row : ℝ) * radius)))
      = fun q : ℝ × ℝ =>
        (q.1 + 1.5 * radius * (col : ℝ),
         q.2 + (SQRT3 * radius * (row : ℝ) +
           (if col % 2 = 1 then SQRT3 * radius / 2 else 0))) := by
    funext q
    simp only [Prod.mk.injEq]
    constructor
    · ring
    · split_ifs <;> ring
  rw [h]

/-- C7: `RenderGrid.draw` paints exactly, for every `(row, col)` with
`0 <= row < rows` and `0 <= col < cols`, a hexagon outline of line
width 1 in the fixed grid color positioned at `left = 1.5*radius*col`
and `top = SQRT3*radius*row` plus an extra `SQRT3*radius/2` exactly when
`col` is odd. -/
theorem grid_draw_paints_every_cell {U : Type} (m : HexMap U) (radius : ℝ)
    (cmd : PolygonCmd) :
    cmd ∈ RenderGrid.cmds m radius ↔
      ∃ row col : ℕ, row < m.rows ∧ col < m.cols ∧
        cmd = ⟨GRID_COLOR, (hexPoints radius).map fun q =>
          (q.1 + 1.5 * radius * (col : ℝ),
           q.2 + (SQRT3 * radius * (row : ℝ) +
             (if col % 2 = 1 then SQRT3 * radius / 2 else 0))), 1⟩ := by
  constructor
  · intro hmem
    rcases List.mem_flatMap.mp hmem with ⟨col, hcol, hin⟩
    rcases List.mem_map.mp hin with ⟨row, hrow, heq⟩
    refine ⟨row, col, List.mem_range.mp hrow, List.mem_range.mp hcol, ?_⟩
    rw [← heq]
    exact grid_cmd_eq radius row col
  · rintro ⟨row, col, hrow, hcol, rfl⟩
    exact List.mem_flatMap.mpr ⟨col, List.mem_range.mpr hcol,
      List.mem_map.mpr ⟨row, List.mem_range.mpr hrow, grid_cmd_eq radius row col⟩⟩

/-- C8: after the shared base fill, `RenderUnits.draw` performs exactly
one `unit.paint` call per `(position, unit)` pair of `map.positions`, on
the sub-view given by `get_surface` of that position, and nothing else:
the colorkey becomes the fill color, the buffer is the fold of the paint
calls over the filled buffer, and with an instrumenting buffer the trace
of calls is precisely `positions` mapped to `(unit, get_surface pos)`. -/
theorem units_draw_paints_each_position {U B : Type}
    (paint : U → PixelRect → B → B) (fillB : Color → B) (m : HexMap U)
    (radius : ℝ) (c : Canvas B) (tc : Canvas (List (U × PixelRect))) :
    (RenderUnits.draw paint fillB m radius c).key =
      some (c.key.getD magenta) ∧
    (RenderUnits.draw paint fillB m radius c).buf =
      m.positions.foldl
        (fun b pu => paint pu.2 (Render.get_surface radius pu.1) b)
        (fillB (c.key.getD magenta)) ∧
    (RenderUnits.draw (fun u rect tr => tr ++ [(u, rect)])
        (fun _ => ([] : List (U × PixelRect))) m radius tc).buf =
      m.positions.map fun pu => (pu.2, Render.get_surface radius pu.1) := by
  refine ⟨?_, ?_, ?_⟩
  · cases hc : c.key <;> simp [RenderUnits.draw, base_draw, hc]
  · cases hc : c.key <;> simp [RenderUnits.draw, base_draw, hc]
  · cases hc : tc.key <;>
      simp [RenderUnits.draw, base_draw, hc,
        foldl_append_singleton_eq_map
          (fun pu : (ℤ × ℤ) × U => (pu.2, Render.get_surface radius pu.1))]

/-- C9: drawing twice in succession leaves exactly the state of the
first draw, for both renderers: the base fill overwrites the whole
buffer and the colorkey is stable after the first call, so there is no
accumulating state. -/
theorem draw_twice_idempotent {U B : Type} (raster : PolygonCmd → B → B)
    (paint : U → PixelRect → B → B) (fillB : Color → B) (m : HexMap U)
    (radius : ℝ) (c : Canvas B) :
    RenderGrid.draw raster fillB m radius
        (RenderGrid.draw raster fillB m radius c) =
      RenderGrid.draw raster fillB m radius c ∧
    RenderUnits.draw paint fillB m radius
        (RenderUnits.draw paint fillB m radius c) =
      RenderUnits.draw paint fillB m radius c := by
  constructor
  · cases hc : c.key <;> simp [RenderGrid.draw, base_draw, hc]
  · cases hc : c.key <;> simp [RenderUnits.draw, base_draw, hc]

/-- A concrete 5 by 5 map (the demo map of `Render.py`), with the
spec-modelled `valid_cell`. -/
def map5 : HexMap Unit := ⟨5, 5, specValidCell 5 5, []⟩

/-- C5: the canvas dimension formulas, and their values on the demo
scenario `rows = 5, cols = 5, radius = 32`: width exactly 257 and height
exactly `5.5*32*SQRT3 + 1`, which lies within 0.1 of 305.8. -/
theorem canvas_dimensions_5x5 :
    (∀ (mm : HexMap Unit) (r : ℝ),
      Render.width mm r =
        (⌈(mm.cols : ℝ) / 2⌉ : ℝ) * 2 * r + (⌊(mm.cols : ℝ) / 2⌋ : ℝ) * r + 1 ∧
      Render.height mm r = ((mm.rows : ℝ) + 0.5) * r * SQRT3 + 1) ∧
    Render.width map5 32 = 257 ∧
    Render.height map5 32 = 5.5 * 32 * SQRT3 + 1 ∧
    |Render.height map5 32 - 305.8| < 0.1 := by
  have hs : SQRT3 ^ 2 = 3 := Real.sq_sqrt (by norm_num)
  have hpos : 0 < SQRT3 := Real.sqrt_pos.mpr (by norm_num)
  have hceil : (⌈((5 : ℕ) : ℝ) / 2⌉ : ℤ) = 3 := by
    norm_num [Int.ceil_eq_iff]
  have hfloor : (⌊((5 : ℕ) : ℝ) / 2⌋ : ℤ) = 2 := by norm_num
  have hh : Render.height map5 32 = 5.5 * 32 * SQRT3 + 1 := by
    simp only [Render.height, map5]
    norm_num
  refine ⟨fun mm r => ⟨rfl, rfl⟩, ?_, hh, ?_⟩
  · simp only [Render.width, map5, hceil, hfloor]
    norm_num
  · rw [hh, abs_lt]
    constructor <;> nlinarith [hs, hpos]

/-- A concrete map with one row and two columns, with the spec-modelled
`valid_cell`. -/
def map12 : HexMap Unit := ⟨1, 2, specValidCell 1 2, []⟩

/-- C3 fails on the code: on a 1 by 2 map with radius 32 the valid cell
`(rows-1, cols-1) = (0, 1)` has a bounding rectangle whose right edge,
`left + width = 48 + 64 = 112`, exceeds the canvas width
`ceil(2/2)*2*32 + floor(2/2)*32 + 1 = 97`; for every even column count
and radius above 2 the last column's rectangles stick out of the canvas
by `0.5*radius - 1` pixels. -/
theorem canvas_width_clips_last_column :
    map12.valid_cell (0, 1) = true ∧
    Render.width map12 32 = 97 ∧
    (Render.get_surface 32 ((0 : ℤ), (1 : ℤ))).left +
        (Render.get_surface 32 ((0 : ℤ), (1 : ℤ))).width = 112 ∧
    Render.width map12 32 <
      (Render.get_surface 32 ((0 : ℤ), (1 : ℤ))).left +
        (Render.get_surface 32 ((0 : ℤ), (1 : ℤ))).width := by
  have hw : Render.width map12 32 = 97 := by
    have hceil : (⌈((2 : ℕ) : ℝ) / 2⌉ : ℤ) = 1 := by
      norm_num [Int.ceil_eq_iff]
    have hfloor : (⌊((2 : ℕ) : ℝ) / 2⌋ : ℤ) = 1 := by norm_num
    simp only [Render.width, map12, hceil, hfloor]
    norm_num
  have hr : (Render.get_surface 32 ((0 : ℤ), (1 : ℤ))).left +
      (Render.get_surface 32 ((0 : ℤ), (1 : ℤ))).width = 112 := by
    simp only [Render.get_surface]
    norm_num
  exact ⟨by decide, hw, hr, by rw [hw, hr]; norm_num⟩

/-- Evaluation of `Render.resolve` when the local offset `ly` lands
exactly on the horizontal mid-line of an even-column bucket: neither
even-column boundary correction fires and the bucket's own cell is
returned. -/
theorem resolve_eval_even (radius x y : ℝ) (r0 c0 : ℤ)
    (hc0 : ⌊x / (1.5 * radius)⌋ = c0) (hr0 : ⌊y / (SQRT3 * radius)⌋ = r0)
    (heven : c0 % 2 = 0)
    (hly : y - (r0 : ℝ) * SQRT3 * radius = SQRT3 * radius / 2) :
    Render.resolve radius x y = (r0 + ⌊((c0 : ℝ) + 1) / 2⌋, c0) := by
  simp only [Render.resolve]
  rw [hc0, hr0, hly]
  split_ifs with h1 h2
  · exact absurd h1.1 (lt_irrefl _)
  · exact absurd h2.1 (lt_irrefl _)
  · rfl

/-- Evaluation of `Render.resolve` when the local offset is `(radius, 0)`
in an odd-column bucket: the left-neighbor test fails on `lx`, the
`ly < SQRT3*radius/2` test succeeds, and the cell above the corrected
row is returned. -/
theorem resolve_eval_odd (radius x y : ℝ) (r0 c0 : ℤ) (hr : 0 < radius)
    (hc0 : ⌊x / (1.5 * radius)⌋ = c0) (hr0 : ⌊y / (SQRT3 * radius)⌋ = r0)
    (hodd : ¬c0 % 2 = 0)
    (hlx : x - (c0 : ℝ) * 1.5 * radius = radius)
    (hly : y - (r0 : ℝ) * SQRT3 * radius = 0) :
    Render.resolve radius x y = (r0 + ⌊((c0 : ℝ) + 1) / 2⌋ - 1, c0) := by
  have hpos : (0 : ℝ) < SQRT3 := Real.sqrt_pos.mpr (by norm_num)
  have hsr : (0 : ℝ) < SQRT3 * radius := mul_pos hpos hr
  simp only [Render.resolve]
  rw [hc0, hr0, hlx, hly]
  split_ifs with h1 h2
  · exact absurd h1.1 (by linarith)
  · rfl
  · exact absurd (by linarith : (0 : ℝ) < SQRT3 * radius / 2) h2

/-- The center of a valid cell's bounding rectangle resolves back to that
cell: the pre-validity part of the round trip, split on the parity of
the column. -/
theorem resolve_center (radius : ℝ) (hr : 0 < radius) (row col : ℤ) :
    Render.resolve radius
      (rectCenter (Render.get_surface radius (row, col))).1
      (rectCenter (Render.get_surface radius (row, col))).2 = (row, col) := by
  have hpos : (0 : ℝ) < SQRT3 := Real.sqrt_pos.mpr (by norm_num)
  have hrne : radius ≠ 0 := ne_of_gt hr
  have hsne : SQRT3 ≠ 0 := ne_of_gt hpos
  rw [show (rectCenter (Render.get_surface radius (row, col))).1 =
      1.5 * radius * (col : ℝ) + 2 * radius / 2 from rfl]
  rw [show (rectCenter (Render.get_surface radius (row, col))).2 =
      ((row : ℝ) - (⌈(col : ℝ) / 2⌉ : ℝ)) * (radius * SQRT3) +
        (if col % 2 = 1 then radius * SQRT3 / 2 else 0) +
        radius * SQRT3 / 2 from rfl]
  have hxdiv : ∀ c : ℤ,
      (1.5 * radius * (c : ℝ) + 2 * radius / 2) / (1.5 * radius) =
        (c : ℝ) + 2 / 3 := by
    intro c
    field_simp
    ring
  have hc0 : ∀ c : ℤ,
      ⌊(1.5 * radius * (c : ℝ) + 2 * radius / 2) / (1.5 * radius)⌋ = c := by
    intro c
    rw [hxdiv c, Int.floor_int_add]
    norm_num
  rcases Int.even_or_odd col with ⟨k, rfl⟩ | ⟨k, rfl⟩
  · -- even column: col = k + k
    have hceil : ⌈((k + k : ℤ) : ℝ) / 2⌉ = k := by
      rw [show ((k + k : ℤ) : ℝ) / 2 = ((k : ℤ) : ℝ) by push_cast; ring,
        Int.ceil_intCast]
    have hif : (if (k + k) % 2 = 1 then radius * SQRT3 / 2 else 0) = 0 :=
      if_neg (by omega)
    have hy2 : ((row : ℝ) - (⌈((k + k : ℤ) : ℝ) / 2⌉ : ℝ)) * (radius * SQRT3) +
        (if (k + k) % 2 = 1 then radius * SQRT3 / 2 else 0) +
        radius * SQRT3 / 2 =
        ((row - k : ℤ) : ℝ) * (SQRT3 * radius) + SQRT3 * radius / 2 := by
      rw [hceil, hif]
      push_cast
      ring
    have hrow : ⌊(((row : ℝ) - (⌈((k + k : ℤ) : ℝ) / 2⌉ : ℝ)) *
        (radius * SQRT3) +
        (if (k + k) % 2 = 1 then radius * SQRT3 / 2 else 0) +
        radius * SQRT3 / 2) / (SQRT3 * radius)⌋ = row - k := by
      rw [hy2, show (((row - k : ℤ) : ℝ) * (SQRT3 * radius) +
          SQRT3 * radius / 2) / (SQRT3 * radius) =
          ((row - k : ℤ) : ℝ) + 1 / 2 by field_simp; ring,
        Int.floor_int_add]
      norm_num
    have hly : ((row : ℝ) - (⌈((k + k : ℤ) : ℝ) / 2⌉ : ℝ)) * (radius * SQRT3) +
        (if (k + k) % 2 = 1 then radius * SQRT3 / 2 else 0) +
        radius * SQRT3 / 2 -
        ((row - k : ℤ) : ℝ) * SQRT3 * radius = SQRT3 * radius / 2 := by
      rw [hy2]
      ring
    rw [resolve_eval_even radius _ _ (row - k) (k + k) (hc0 (k + k)) hrow
      (by omega) hly]
    have hfl : ⌊(((k + k : ℤ) : ℝ) + 1) / 2⌋ = k := by
      rw [show (((k + k : ℤ) : ℝ) + 1) / 2 = ((k : ℤ) : ℝ) + 1 / 2 by
        push_cast; ring, Int.floor_int_add]
      norm_num
    rw [hfl, show row - k + k = row from by ring]
  · -- odd column: col = 2 * k + 1
    have hceil : ⌈((2 * k + 1 : ℤ) : ℝ) / 2⌉ = k + 1 := by
      rw [show ((2 * k + 1 : ℤ) : ℝ) / 2 = 1 / 2 + ((k : ℤ) : ℝ) by
        push_cast; ring, Int.ceil_add_int,
        show (⌈(1 / 2 : ℝ)⌉ : ℤ) = 1 by norm_num [Int.ceil_eq_iff]]
      ring
    have hif : (if (2 * k + 1) % 2 = 1 then radius * SQRT3 / 2 else 0) =
        radius * SQRT3 / 2 := if_pos (by omega)
    have hy2 : ((row : ℝ) - (⌈((2 * k + 1 : ℤ) : ℝ) / 2⌉ : ℝ)) *
        (radius * SQRT3) +
        (if (2 * k + 1) % 2 = 1 then radius * SQRT3 / 2 else 0) +
        radius * SQRT3 / 2 =
        ((row - k : ℤ) : ℝ) * (SQRT3 * radius) := by
      rw [hceil, hif]
      push_cast
      ring
    have hrow : ⌊(((row : ℝ) - (⌈((2 * k + 1 : ℤ) : ℝ) / 2⌉ : ℝ)) *
        (radius * SQRT3) +
        (if (2 * k + 1) % 2 = 1 then radius * SQRT3 / 2 else 0) +
        radius * SQRT3 / 2) / (SQRT3 * radius)⌋ = row - k := by
      rw [hy2, mul_div_assoc, div_self (by positivity : SQRT3 * radius ≠ 0),
        mul_one, Int.floor_intCast]
    have hlx : 1.5 * radius * ((2 * k + 1 : ℤ) : ℝ) + 2 * radius / 2 -
        ((2 * k + 1 : ℤ) : ℝ) * 1.5 * radius = radius := by
      push_cast
      ring
    have hly : ((row : ℝ) - (⌈((2 * k + 1 : ℤ) : ℝ) / 2⌉ : ℝ)) *
        (radius * SQRT3) +
        (if (2 * k + 1) % 2 = 1 then radius * SQRT3 / 2 else 0) +
        radius * SQRT3 / 2 -
        ((row - k : ℤ) : ℝ) * SQRT3 * radius = 0 := by
      rw [hy2]
      ring
    rw [resolve_eval_odd radius _ _ (row - k) (2 * k + 1) hr
      (hc0 (2 * k + 1)) hrow (by omega) hlx hly]
    have hfl : ⌊(((2 * k + 1 : ℤ) : ℝ) + 1) / 2⌋ = k + 1 := by
      rw [show (((2 * k + 1 : ℤ) : ℝ) + 1) / 2 = ((k + 1 : ℤ) : ℝ) by
        push_cast; ring, Int.floor_intCast]
    rw [hfl, show row - k + (k + 1) - 1 = row from by ring]

/-- C1: feeding the center pixel of a valid cell's bounding rectangle (as
computed by `get_surface`) into `get_cell` returns that same cell, for
every positive radius. -/
theorem get_cell_center_roundtrip {U : Type} (m : HexMap U) (radius : ℝ)
    (row col : ℤ) (hr : 0 < radius)
    (hvalid : m.valid_cell (row, col) = true) :
    Render.get_cell m radius
      (rectCenter (Render.get_surface radius (row, col))) =
      some (row, col) := by
  have hres := resolve_center radius hr row col
  simp only [Render.get_cell]
  rw [hres, hvalid]
  simp

/-- A fully valid map used to instantiate hypothesis-bearing theorems at
concrete inputs. -/
def mapAll : HexMap Unit := ⟨5, 5, fun _ => true, []⟩

/-- C1 witness: on a concrete map accepting `(0, 0)` and radius 32, the
center of cell `(0, 0)`'s rectangle resolves back to `(0, 0)`. -/
theorem get_cell_center_roundtrip_witness :
    Render.get_cell mapAll 32
      (rectCenter (Render.get_surface 32 ((0 : ℤ), (0 : ℤ)))) =
      some ((0 : ℤ), (0 : ℤ)) :=
  get_cell_center_roundtrip mapAll 32 0 0 (by norm_num) rfl

/-- C6: with radius 32 on a 5 by 5 map whose `valid_cell` rejects
negative coordinates, `get_cell` at pixel `(0, 0)` resolves through the
even-column upper-left branch to `(-1, -1)`, which is invalid, so the
result is the `none` sentinel. -/
theorem get_cell_origin_none {U : Type} (m : HexMap U)
    (hrows : m.rows = 5) (hcols : m.cols = 5)
    (hneg : m.valid_cell (-1, -1) = false) :
    Render.resolve 32 0 0 = ((-1 : ℤ), (-1 : ℤ)) ∧
    Render.get_cell m 32 ((0 : ℝ), (0 : ℝ)) = none := by
  have hpos : (0 : ℝ) < SQRT3 := Real.sqrt_pos.mpr (by norm_num)
  have hres : Render.resolve 32 0 0 = ((-1 : ℤ), (-1 : ℤ)) := by
    simp only [Render.resolve]
    norm_num
    intro h
    exact absurd h hpos.not_le
  refine ⟨hres, ?_⟩
  simp only [Render.get_cell]
  rw [show Render.resolve 32 (0 : ℝ) (0 : ℝ) = ((-1 : ℤ), (-1 : ℤ)) from hres,
    hneg]
  simp

/-- The demo's 5 by 5 map with the spec-modelled `valid_cell`, which
rejects negative coordinates. -/
def map5x5 : HexMap Unit := ⟨5, 5, specValidCell 5 5, []⟩

/-- C6 witness: the origin click on the concrete 5 by 5 map returns the
`none` sentinel after resolving to `(-1, -1)`. -/
theorem get_cell_origin_none_witness :
    Render.resolve 32 0 0 = ((-1 : ℤ), (-1 : ℤ)) ∧
    Render.get_cell map5x5 32 ((0 : ℝ), (0 : ℝ)) = none :=
  get_cell_origin_none map5x5 rfl rfl (by decide)

end HexGrid
